import Mathlib

/-!
# Verification of the `@splunkdlt/hec-client` batching client

Shallow embedding of `packages/hec-client/src/client.ts` (class `HecClient`)
and of the abort primitive of `@splunkdlt/async-tasks` (`abort.ts`).

Modelling conventions:
* A serialized HEC message (`SerializedHecMsg`, a Node `Buffer` in the source)
  is modelled as its list of bytes; its length in bytes is the list length.
* The mutable fields of a `HecClient` instance become an explicit
  `ClientState` record that every method threads through.
* Thrown JavaScript values are `JsErr`: either a generic `Error` carrying its
  message, or the distinguished `ABORT` symbol exported by the async-tasks
  abort module (`export const ABORT = Symbol('[[ABORT]]')`).
* The `while (true)` retry loop of `HecClient.sendToHec` is embedded as a
  fuel-indexed recursion; a result of `none` means the loop was still running
  after `fuel` iterations.
* Asynchronous external effects (the HTTP POST, the abort signal) are supplied
  as an environment `Nat → AttemptEnv` giving, for each attempt number, the
  outcome of the `fetch` call and the value of `abortSignal.aborted` at the
  two points where the source reads it.
-/

namespace DltConnect

/-- A JavaScript value that can be thrown / used to reject a promise:
either a generic `Error` (carrying its message) or the distinguished `ABORT`
symbol from the async-tasks abort module. -/
inductive JsErr where
  | error (msg : String)
  | abortSymbol
deriving DecidableEq, Repr

/-- One serialized HEC message: its raw bytes (`Buffer` in the source).
Its byte length is the list length. -/
abbrev SerializedHecMsg := List Nat

/-- Total byte length of a list of serialized messages. -/
def queueBytes (q : List SerializedHecMsg) : Nat :=
  (q.map List.length).sum

/-- The plain counters of `HecClient` (source: `initialCounters` object,
client.ts lines 18-26). -/
structure Counters where
  errorCount : Nat
  retryCount : Nat
  queuedMessages : Nat
  sentMessages : Nat
  queuedBytes : Nat
  sentBytes : Nat
  transferredBytes : Nat
deriving DecidableEq, Repr

/-- `initialCounters`: every plain counter starts at zero. -/
def initialCounters : Counters :=
  ⟨0, 0, 0, 0, 0, 0, 0⟩

/-- HEC metadata defaults (`defaultMetadata` in the config). -/
structure HecMetadata where
  host : Option String
  source : Option String
  sourcetype : Option String
  index : Option String
deriving DecidableEq, Repr

/-- The cooked client configuration (source: `CookedHecConfig`, produced by
`parseHecConfig`; the option set follows the configuration surface of the
client). `maxQueueEntries` is an `Int` because `-1` disables the entries
trigger. -/
structure CookedHecConfig where
  url : String
  token : Option String
  userAgent : String
  validateCertificate : Bool
  timeout : Nat
  maxSockets : Nat
  requestKeepAlive : Bool
  gzip : Bool
  multipleMetricFormatEnabled : Bool
  maxQueueSize : Nat
  maxQueueEntries : Int
  flushTime : Nat
  maxRetries : Nat
  defaultMetadata : HecMetadata
deriving DecidableEq, Repr

/-- Samples pushed into the four `AggregateMetric`s of the client.  Each
aggregate is modelled by the list of samples pushed since its last flush. -/
structure AggSamples where
  requestDuration : List Nat
  batchSize : List Nat
  batchSizeBytes : List Nat
  batchSizeCompressed : List Nat
deriving DecidableEq, Repr

/-- All aggregates empty (freshly constructed or just flushed). -/
def emptyAggSamples : AggSamples :=
  ⟨[], [], [], []⟩

/-- The mutable state of a `HecClient` instance.  `activeFlushing` holds the
batches of the in-flight flush handles; `dispatched` is a history variable
recording every batch handed to `sendToHec`, in dispatch order (it lets
theorems talk about which messages a triggering flush contained). -/
structure ClientState where
  active : Bool
  queue : List SerializedHecMsg
  queueSizeBytes : Nat
  flushTimerArmed : Bool
  activeFlushing : List (List SerializedHecMsg)
  counters : Counters
  aggregates : AggSamples
  dispatched : List (List SerializedHecMsg)
deriving DecidableEq, Repr

/-- State of a freshly constructed client. -/
def initState : ClientState :=
  { active := true
    queue := []
    queueSizeBytes := 0
    flushTimerArmed := false
    activeFlushing := []
    counters := initialCounters
    aggregates := emptyAggSamples
    dispatched := [] }

/-- `HecClient.flushInternal` (client.ts lines 236-258): clear the idle
timer; if the queue is empty, complete immediately; otherwise swap the queue
out into a new in-flight batch and reset the tracked byte total to zero. -/
def flushInternal (st : ClientState) : ClientState :=
  let st := { st with flushTimerArmed := false }
  if st.queue.isEmpty then st
  else
    { st with
      queue := []
      queueSizeBytes := 0
      activeFlushing := st.activeFlushing ++ [st.queue]
      dispatched := st.dispatched ++ [st.queue] }

/-- `HecClient.scheduleFlush` (client.ts lines 341-353): if
`maxQueueEntries !== -1` and the queue has more entries than
`maxQueueEntries`, flush immediately and return; otherwise arm the idle
timer if it is not armed yet. -/
def scheduleFlush (cfg : CookedHecConfig) (st : ClientState) : ClientState :=
  if cfg.maxQueueEntries ≠ -1 ∧ (st.queue.length : Int) > cfg.maxQueueEntries then
    flushInternal st
  else if st.flushTimerArmed then st
  else { st with flushTimerArmed := true }

/-- Step 2 of `pushSerializedMsg`: `this.counters.queuedMessages++;
this.counters.queuedBytes += serialized.length`. -/
def countQueued (st : ClientState) (serialized : SerializedHecMsg) :
    ClientState :=
  { st with
    counters := { st.counters with
      queuedMessages := st.counters.queuedMessages + 1
      queuedBytes := st.counters.queuedBytes + serialized.length } }

/-- Step 3 of `pushSerializedMsg`: flush first when appending would exceed
`maxQueueSize` bytes. -/
def eagerFlush (cfg : CookedHecConfig) (st : ClientState)
    (serialized : SerializedHecMsg) : ClientState :=
  if st.queueSizeBytes + serialized.length > cfg.maxQueueSize then
    flushInternal st
  else st

/-- Step 4 of `pushSerializedMsg`: `this.queueSizeBytes +=
serialized.length; this.queue.push(serialized)`. -/
def appendMsg (st : ClientState) (serialized : SerializedHecMsg) :
    ClientState :=
  { st with
    queueSizeBytes := st.queueSizeBytes + serialized.length
    queue := st.queue ++ [serialized] }

/-- `HecClient.pushSerializedMsg` (client.ts lines 123-139):
1. throw `Error('HEC client has been shut down')` when inactive;
2. increment `queuedMessages` / `queuedBytes`;
3. if appending would exceed `maxQueueSize` bytes, flush first;
4. append and add the message length to the byte total;
5. `scheduleFlush()`. -/
def pushSerializedMsg (cfg : CookedHecConfig) (st : ClientState)
    (serialized : SerializedHecMsg) : Except JsErr ClientState :=
  if st.active = false then
    .error (.error "HEC client has been shut down")
  else
    .ok (scheduleFlush cfg
      (appendMsg (eagerFlush cfg (countQueued st serialized) serialized)
        serialized))

/-- Run `pushSerializedMsg` as a state transition: a thrown error leaves the
state as it was (the source throws before performing any mutation). -/
def pushStep (cfg : CookedHecConfig) (st : ClientState)
    (serialized : SerializedHecMsg) : ClientState × Option JsErr :=
  match pushSerializedMsg cfg st serialized with
  | .ok st2 => (st2, none)
  | .error e => (st, some e)

/-- The synchronous part of `HecClient.shutdown` (client.ts line 167):
`this.active = false`.  The later draining / cancellation is asynchronous and
does not affect the synchronous push-rejection behaviour. -/
def shutdownSync (st : ClientState) : ClientState :=
  { st with active := false }

/-- The idle timer firing: its callback calls `flushInternal` (client.ts
lines 348-351).  If the timer is not armed nothing happens. -/
def timerFire (st : ClientState) : ClientState :=
  if st.flushTimerArmed then flushInternal st else st

/-- The snapshot object returned by `HecClient.flushStats` (client.ts lines
149-163), minus the HTTP-agent pool stats (external transport state). -/
structure HecStats where
  counters : Counters
  requestDuration : List Nat
  batchSize : List Nat
  batchSizeBytes : List Nat
  batchSizeCompressed : List Nat
  activeFlushingCount : Nat
  queueSize : Nat
  queueSizeBytes : Nat
deriving DecidableEq, Repr

/-- `HecClient.flushStats`: snapshot the plain counters, flush (snapshot and
reset) each aggregate, report the active-flush count, queue depth and queue
byte total; then reset the plain counters to `initialCounters`. -/
def flushStats (st : ClientState) : HecStats × ClientState :=
  (⟨st.counters,
    st.aggregates.requestDuration,
    st.aggregates.batchSize,
    st.aggregates.batchSizeBytes,
    st.aggregates.batchSizeCompressed,
    st.activeFlushing.length,
    st.queue.length,
    st.queueSizeBytes⟩,
   { st with counters := initialCounters, aggregates := emptyAggSamples })

/-- One producer-visible operation on the client.  `pushEvent`, `pushMetric`
and `pushMetrics` each serialize their record (a pure step, in
`serialize.ts`) and then perform one — or, for `pushMetrics` with the
multi-metric format disabled, several — `pushSerializedMsg` calls, so every
sequence of those operations is a sequence of these. -/
inductive ClientOp where
  | push (serialized : SerializedHecMsg)
  | flush
  | flushInternalOp
  | timerFireOp
deriving DecidableEq, Repr

/-- State effect of one operation.  `flush()` awaits the in-flight handles
and calls `flushInternal`; its synchronous state effect is `flushInternal`. -/
def step (cfg : CookedHecConfig) (st : ClientState) : ClientOp → ClientState
  | .push m => (pushStep cfg st m).1
  | .flush => flushInternal st
  | .flushInternalOp => flushInternal st
  | .timerFireOp => timerFire st

/-- Run a sequence of operations from a starting state. -/
def runOps (cfg : CookedHecConfig) (ops : List ClientOp) (st : ClientState) :
    ClientState :=
  ops.foldl (step cfg) st

/-- Environment of one attempt of the `sendToHec` retry loop: whether the
POST returned a 2xx response, the message of the error thrown otherwise
(non-2xx status, network failure or abort rejection), and the value of
`abortSignal.aborted` at the two points where the catch block reads it. -/
structure AttemptEnv where
  httpOk : Bool
  failMsg : String
  abortedInCatch : Bool
  abortedAfterSleep : Bool
deriving DecidableEq, Repr

/-- Outcome of a completed `sendToHec` call: the promise resolved, or it
rejected with a thrown value. -/
inductive SendOutcome where
  | success
  | failure (e : JsErr)
deriving DecidableEq, Repr

/-- Observable result of running the `sendToHec` loop for a bounded number
of iterations: `result = none` means the loop had not terminated, and
`attemptsMade` counts the POST attempts performed, `sleeps` the waits slept
between attempts. -/
structure SendRun where
  result : Option SendOutcome
  counters : Counters
  attemptsMade : Nat
  sleeps : List Nat
deriving DecidableEq, Repr

/-- The `while (true)` retry loop of `HecClient.sendToHec` (client.ts lines
282-338), fuel-indexed.  Each iteration: increment `attempt`; on a 2xx
response add the batch to the sent counters and resolve; otherwise increment
`errorCount`, throw `Error('Aborted')` if the signal is aborted, and — only
when `attempt <= maxRetries` — sleep the resolved wait, re-check the signal,
and increment `retryCount`.  Note the loop body has no exit for a failed
attempt past the cap: it simply iterates again. -/
def sendToHecLoop (maxRetries : Nat) (retryWait : Nat → Nat)
    (env : Nat → AttemptEnv) (msgCount rawBodySize bodySize : Nat) :
    Nat → Nat → Counters → List Nat → SendRun
  | attempt, 0, c, sleeps => ⟨none, c, attempt, sleeps⟩
  | attempt, fuel + 1, c, sleeps =>
    let a := attempt + 1
    let e := env a
    if e.httpOk then
      ⟨some .success,
       { c with
         sentMessages := c.sentMessages + msgCount
         sentBytes := c.sentBytes + rawBodySize
         transferredBytes := c.transferredBytes + bodySize },
       a, sleeps⟩
    else
      let c := { c with errorCount := c.errorCount + 1 }
      if e.abortedInCatch then
        ⟨some (.failure (.error "Aborted")), c, a, sleeps⟩
      else if a ≤ maxRetries then
        let sleeps := sleeps ++ [retryWait a]
        if e.abortedAfterSleep then
          ⟨some (.failure (.error "Aborted")), c, a, sleeps⟩
        else
          sendToHecLoop maxRetries retryWait env msgCount rawBodySize bodySize
            a fuel { c with retryCount := c.retryCount + 1 } sleeps
      else
        sendToHecLoop maxRetries retryWait env msgCount rawBodySize bodySize
          a fuel c sleeps

/-- `HecClient.sendToHec` entry (client.ts lines 260-281): compute the raw
body size as the concatenation of the batch; when `gzip` is set,
`await compressBody(rawBody)` — `compressed` supplies its outcome, either
the compressed byte length or a rejection, which propagates out of
`sendToHec` (and hence onto the flush's completion signal) before any
aggregate is recorded; then record the batch aggregates and run the retry
loop from attempt 0 with the caller's counters. -/
def sendToHec (cfg : CookedHecConfig) (retryWait : Nat → Nat)
    (msgs : List SerializedHecMsg) (compressed : Except JsErr Nat)
    (env : Nat → AttemptEnv) (c : Counters) (aggs : AggSamples)
    (fuel : Nat) : Except JsErr (SendRun × AggSamples) :=
  let rawBodySize := queueBytes msgs
  match if cfg.gzip then compressed else .ok rawBodySize with
  | .error e => .error e
  | .ok bodySize =>
    let aggs := { aggs with
      batchSize := aggs.batchSize ++ [msgs.length]
      batchSizeBytes := aggs.batchSizeBytes ++ [rawBodySize]
      batchSizeCompressed :=
        if cfg.gzip then aggs.batchSizeCompressed ++ [bodySize]
        else aggs.batchSizeCompressed }
    .ok (sendToHecLoop cfg.maxRetries retryWait env msgs.length rawBodySize
           bodySize 0 fuel c [], aggs)

/-! ## Clone (`HecClient.clone`, client.ts lines 75-89)

`utils.ts` (`removeEmtpyValues`, `deepMerge`) and `config.ts`
(`parseHecConfig`) are not part of the sources at hand; they are modelled
from the spec: an override field is dropped when it is an empty value, the
merge recurses into nested maps with the right operand winning per key, and
the constructor's `parseHecConfig` resolves a full configuration (it is the
identity on an already-cooked configuration). -/

/-- A `Partial<HecConfig>` overrides object: every option may be absent.
`none` stands for "absent or an empty value" (the cleaned view after
`removeEmtpyValues`). -/
structure HecConfigOverrides where
  url : Option String
  token : Option String
  userAgent : Option String
  validateCertificate : Option Bool
  timeout : Option Nat
  maxSockets : Option Nat
  requestKeepAlive : Option Bool
  gzip : Option Bool
  multipleMetricFormatEnabled : Option Bool
  maxQueueSize : Option Nat
  maxQueueEntries : Option Int
  flushTime : Option Nat
  maxRetries : Option Nat
  defaultMetadata : Option HecMetadata
deriving DecidableEq, Repr

/-- Modelled from the spec: an overrides object is empty after dropping
empty values iff every option is absent (`Object.keys(removeEmtpyValues(o)).length === 0`). -/
def overridesIsEmpty (o : HecConfigOverrides) : Bool :=
  o.url.isNone && o.token.isNone && o.userAgent.isNone &&
  o.validateCertificate.isNone && o.timeout.isNone && o.maxSockets.isNone &&
  o.requestKeepAlive.isNone && o.gzip.isNone &&
  o.multipleMetricFormatEnabled.isNone && o.maxQueueSize.isNone &&
  o.maxQueueEntries.isNone && o.flushTime.isNone && o.maxRetries.isNone &&
  o.defaultMetadata.isNone

/-- Modelled from the spec: deep merge of a metadata map — keys present in
the right operand replace those of the left. -/
def deepMergeMetadata (a b : HecMetadata) : HecMetadata where
  host := b.host.orElse fun _ => a.host
  source := b.source.orElse fun _ => a.source
  sourcetype := b.sourcetype.orElse fun _ => a.sourcetype
  index := b.index.orElse fun _ => a.index

/-- Modelled from the spec: `deepMerge(cfg, overrides)` — for nested maps
recurse, for scalar values the override replaces the current value when
present. -/
def deepMerge (cfg : CookedHecConfig) (o : HecConfigOverrides) :
    CookedHecConfig where
  url := o.url.getD cfg.url
  token := (o.token.map some).getD cfg.token
  userAgent := o.userAgent.getD cfg.userAgent
  validateCertificate := o.validateCertificate.getD cfg.validateCertificate
  timeout := o.timeout.getD cfg.timeout
  maxSockets := o.maxSockets.getD cfg.maxSockets
  requestKeepAlive := o.requestKeepAlive.getD cfg.requestKeepAlive
  gzip := o.gzip.getD cfg.gzip
  multipleMetricFormatEnabled :=
    o.multipleMetricFormatEnabled.getD cfg.multipleMetricFormatEnabled
  maxQueueSize := o.maxQueueSize.getD cfg.maxQueueSize
  maxQueueEntries := o.maxQueueEntries.getD cfg.maxQueueEntries
  flushTime := o.flushTime.getD cfg.flushTime
  maxRetries := o.maxRetries.getD cfg.maxRetries
  defaultMetadata :=
    match o.defaultMetadata with
    | none => cfg.defaultMetadata
    | some m => deepMergeMetadata cfg.defaultMetadata m

/-- What `HecClient.clone` returns, up to JavaScript object identity: the
receiver itself, or a newly constructed client with the given cooked
configuration, either sharing the receiver's HTTP agent or owning a fresh
one. -/
inductive CloneResult where
  | sameInstance
  | newClient (config : CookedHecConfig) (sharesAgent : Bool)
deriving DecidableEq, Repr

/-- `HecClient.clone` (client.ts lines 75-89): return `this` when the
overrides are null or empty after dropping empty values; create a wholly new
client (own agent) when a URL override differs from the current URL;
otherwise create a new client from the deep merge that reuses the receiver's
HTTP agent. -/
def clone (cfg : CookedHecConfig) (ov : Option HecConfigOverrides) :
    CloneResult :=
  match ov with
  | none => .sameInstance
  | some o =>
    if overridesIsEmpty o then .sameInstance
    else
      match o.url with
      | some u =>
        if u ≠ cfg.url then .newClient (deepMerge cfg o) false
        else .newClient (deepMerge cfg o) true
      | none => .newClient (deepMerge cfg o) true

/-! ## The abort primitive (`@splunkdlt/async-tasks`, `abort.ts`)

Source: `ABORT = Symbol('[[ABORT]]')` and `class AbortHandle` with
`abort()` (set `aborted`, fire every member token, clear the set) and
`withAbort(fn)` (reject with `ABORT` when already aborted; otherwise add a
fresh token to the set, run the closure, and delete the token in a
`finally`). Tokens are identified by a `Nat`. -/

/-- Observable state of an `AbortHandle`: the `aborted` flag and the set of
currently-live member tokens. -/
structure AbortHandleState where
  aborted : Bool
  handles : Finset Nat
deriving DecidableEq

/-- `AbortHandle.abort`: set the flag, fire every member token, clear the
set. -/
def abortAll (_st : AbortHandleState) : AbortHandleState :=
  ⟨true, ∅⟩

/-- Observable run of `AbortHandle.withAbort`: the value the returned promise
settles with, whether the closure was invoked at all, the group state while
the closure runs (token added), and the group state after the `finally`
(token deleted). -/
structure WithAbortRun (α : Type) where
  result : Except JsErr α
  ranClosure : Bool
  duringState : AbortHandleState
  finalState : AbortHandleState

/-- `AbortHandle.withAbort` (abort.ts): when already aborted, reject with
`ABORT` without running the closure.  Otherwise add a fresh token, run the
closure — `closureResult` is whatever it settles with (success, failure, or
the `ABORT` sentinel when it lost a race against the token), `abortedDuring`
records whether `abort()` fired while it ran (clearing the whole set) — and
in all cases delete the fresh token from the set afterwards. -/
def withAbort {α : Type} (st : AbortHandleState) (fresh : Nat)
    (abortedDuring : Bool) (closureResult : Except JsErr α) : WithAbortRun α :=
  if st.aborted then
    ⟨.error .abortSymbol, false, st, st⟩
  else
    let during : AbortHandleState := ⟨st.aborted, insert fresh st.handles⟩
    let afterClosure := if abortedDuring then abortAll during else during
    ⟨closureResult, true, during,
     ⟨afterClosure.aborted, afterClosure.handles.erase fresh⟩⟩

/-! ## Concrete instances used to evaluate the embedding -/

/-- A representative cooked configuration (defaults of the configuration
surface; `maxQueueEntries = -1` disables the entries trigger). -/
def cfgBase : CookedHecConfig where
  url := "https://localhost:8088/services/collector/event/1.0"
  token := some "11111111-1111-1111-1111-111111111111"
  userAgent := "splunk-hec-client"
  validateCertificate := true
  timeout := 30000
  maxSockets := 128
  requestKeepAlive := true
  gzip := false
  multipleMetricFormatEnabled := false
  maxQueueSize := 512000
  maxQueueEntries := -1
  flushTime := 0
  maxRetries := 5
  defaultMetadata := ⟨none, none, none, none⟩

/-- Tiny byte limit and a zero entries limit. -/
def cfgEntries0 : CookedHecConfig :=
  { cfgBase with maxQueueSize := 10, maxQueueEntries := 0 }

/-- Tiny byte limit, entries trigger disabled. -/
def cfgSmallQueue : CookedHecConfig :=
  { cfgBase with maxQueueSize := 10 }

/-- An 11-byte serialized message. -/
def msg11 : SerializedHecMsg := List.replicate 11 7

/-- A 9-byte serialized message. -/
def msg9 : SerializedHecMsg := List.replicate 9 5

/-- A client state with one 1-byte message queued. -/
def stOneQueued : ClientState :=
  { initState with queue := [[7]], queueSizeBytes := 1 }

/-- A client state with one 2-byte message queued. -/
def stSmall : ClientState :=
  { initState with queue := [[1, 2]], queueSizeBytes := 2 }

/-- Attempt environment in which every POST fails with HTTP 503 and the
abort signal never fires. -/
def envAllFail : Nat → AttemptEnv :=
  fun _ => ⟨false, "HEC responded with status 503", false, false⟩

/-- Attempt environment in which the POST rejects because the abort signal
fired mid-request. -/
def envAbortMidRequest : Nat → AttemptEnv :=
  fun _ => ⟨false, "The user aborted a request.", true, false⟩

/-- Attempt environment in which the first POST fails with HTTP 503 and the
abort signal fires during the retry sleep. -/
def envAbortMidSleep : Nat → AttemptEnv :=
  fun _ => ⟨false, "HEC responded with status 503", false, true⟩

/-- Attempt environment of scenario R1: HTTP 503 twice, then a 2xx. -/
def envR1 : Nat → AttemptEnv :=
  fun a =>
    if a ≤ 2 then ⟨false, "HEC responded with status 503", false, false⟩
    else ⟨true, "", false, false⟩

/-- A batch of three messages of 10, 20 and 30 bytes. -/
def msgsR1 : List SerializedHecMsg :=
  [List.replicate 10 1, List.replicate 20 2, List.replicate 30 3]

/-- Scenario R1 configuration: `maxRetries = 3`. -/
def cfgR1 : CookedHecConfig := { cfgBase with maxRetries := 3 }

/-- An overrides object with every option absent. -/
def noOverrides : HecConfigOverrides :=
  ⟨none, none, none, none, none, none, none, none, none, none, none, none,
   none, none⟩

/-- Overrides that only change the URL. -/
def ovUrl : HecConfigOverrides :=
  { noOverrides with url := some "https://other-host:8088" }

/-- Overrides that only change the token (URL unchanged). -/
def ovToken : HecConfigOverrides :=
  { noOverrides with token := some "22222222-2222-2222-2222-222222222222" }

/-- The queue-accounting invariant: the tracked byte total equals the sum of
the byte lengths of the serialized messages currently queued. -/
def queueInv (st : ClientState) : Prop :=
  st.queueSizeBytes = queueBytes st.queue

/-! ## Helper lemmas -/

theorem queueBytes_append (q : List SerializedHecMsg) (m : SerializedHecMsg) :
    queueBytes (q ++ [m]) = queueBytes q + m.length := by
  simp [queueBytes]

theorem queueInv_flushInternal {st : ClientState} (h : queueInv st) :
    queueInv (flushInternal st) := by
  simp only [flushInternal]
  split
  · exact h
  · simp [queueInv, queueBytes]

theorem queueInv_scheduleFlush {cfg : CookedHecConfig} {st : ClientState}
    (h : queueInv st) : queueInv (scheduleFlush cfg st) := by
  simp only [scheduleFlush]
  split
  · exact queueInv_flushInternal h
  · split
    · exact h
    · exact h

theorem queueInv_countQueued {st : ClientState} {m : SerializedHecMsg}
    (h : queueInv st) : queueInv (countQueued st m) :=
  h

theorem queueInv_eagerFlush {cfg : CookedHecConfig} {st : ClientState}
    {m : SerializedHecMsg} (h : queueInv st) :
    queueInv (eagerFlush cfg st m) := by
  simp only [eagerFlush]
  split
  · exact queueInv_flushInternal h
  · exact h

theorem queueInv_appendMsg {st : ClientState} (h : queueInv st)
    (m : SerializedHecMsg) : queueInv (appendMsg st m) := by
  simp only [queueInv, appendMsg, queueBytes_append]
  exact congrArg (· + m.length) h

theorem queueInv_pushStep {cfg : CookedHecConfig} {st : ClientState}
    {m : SerializedHecMsg} (h : queueInv st) :
    queueInv (pushStep cfg st m).1 := by
  by_cases hact : st.active = false
  · simp only [pushStep, pushSerializedMsg, if_pos hact]
    exact h
  · simp only [pushStep, pushSerializedMsg, if_neg hact]
    exact queueInv_scheduleFlush
      (queueInv_appendMsg (queueInv_eagerFlush (queueInv_countQueued h)) m)

theorem queueInv_step {cfg : CookedHecConfig} {st : ClientState}
    {op : ClientOp} (h : queueInv st) : queueInv (step cfg st op) := by
  cases op with
  | push m => exact queueInv_pushStep h
  | flush => exact queueInv_flushInternal h
  | flushInternalOp => exact queueInv_flushInternal h
  | timerFireOp =>
    show queueInv (timerFire st)
    simp only [timerFire]
    split
    · exact queueInv_flushInternal h
    · exact h

theorem queueInv_runOps {cfg : CookedHecConfig} (ops : List ClientOp)
    {st : ClientState} (h : queueInv st) : queueInv (runOps cfg ops st) := by
  induction ops generalizing st with
  | nil => exact h
  | cons op rest ih => exact ih (queueInv_step h)

/-! ## Claims -/

/-- C5: in every client state reachable by any sequence of push / flush /
flushInternal / timer operations from the initial state, the tracked
`queueSizeBytes` equals the sum of the byte lengths of the serialized
messages currently in the queue. -/
theorem queueSizeBytes_invariant (cfg : CookedHecConfig) (ops : List ClientOp) :
    (runOps cfg ops initState).queueSizeBytes =
      queueBytes (runOps cfg ops initState).queue :=
  queueInv_runOps ops rfl

/-- C7: after `shutdown` has flipped the `active` flag, every push rejects
synchronously with `Error('HEC client has been shut down')` and leaves the
client state — queue, byte total, counters, timers, in-flight set — exactly
as it was; the shutdown check precedes every enqueue effect. -/
theorem push_after_shutdown_rejects (cfg : CookedHecConfig) (st : ClientState)
    (m : SerializedHecMsg) :
    pushStep cfg (shutdownSync st) m =
      (shutdownSync st, some (.error "HEC client has been shut down")) := by
  simp [pushStep, pushSerializedMsg, shutdownSync]

/-- C10: `flushStats` returns a snapshot holding the pre-call values of all
plain counters together with the current queue depth, queue byte total and
active-flush count, then resets every plain counter to zero while leaving
the queue contents, the tracked byte total, the active-flush set and all
other client state unchanged. -/
theorem flushStats_snapshot_and_reset (st : ClientState) :
    (flushStats st).1.counters = st.counters ∧
    (flushStats st).1.queueSize = st.queue.length ∧
    (flushStats st).1.queueSizeBytes = st.queueSizeBytes ∧
    (flushStats st).1.activeFlushingCount = st.activeFlushing.length ∧
    (flushStats st).2.counters = ⟨0, 0, 0, 0, 0, 0, 0⟩ ∧
    (flushStats st).2.queue = st.queue ∧
    (flushStats st).2.queueSizeBytes = st.queueSizeBytes ∧
    (flushStats st).2.activeFlushing = st.activeFlushing ∧
    (flushStats st).2.active = st.active ∧
    (flushStats st).2.flushTimerArmed = st.flushTimerArmed ∧
    (flushStats st).2.dispatched = st.dispatched :=
  ⟨rfl, rfl, rfl, rfl, rfl, rfl, rfl, rfl, rfl, rfl, rfl⟩

/-- C6 (scenario R1): with `maxRetries = 3` and a constant 1 ms wait, a
batch of three messages (60 raw bytes) whose first two POSTs fail with HTTP
503 and whose third returns a 2xx succeeds with `errorCount` and
`retryCount` incremented by exactly 2, `sentMessages` by the batch count,
`sentBytes` by the raw byte count, and `transferredBytes` by the wire byte
count (compressed size when gzip is on). -/
theorem sendToHec_retry_then_success (c : Counters) :
    sendToHec cfgR1 (fun _ => 1) msgsR1 (.ok 0) envR1 c emptyAggSamples 10 =
      .ok (⟨some .success,
            ⟨c.errorCount + 2, c.retryCount + 2, c.queuedMessages,
             c.sentMessages + 3, c.queuedBytes, c.sentBytes + 60,
             c.transferredBytes + 60⟩,
            3, [1, 1]⟩,
           ⟨[], [3], [60], []⟩) ∧
    sendToHec { cfgR1 with gzip := true } (fun _ => 1) msgsR1 (.ok 42) envR1
        c emptyAggSamples 10 =
      .ok (⟨some .success,
            ⟨c.errorCount + 2, c.retryCount + 2, c.queuedMessages,
             c.sentMessages + 3, c.queuedBytes, c.sentBytes + 60,
             c.transferredBytes + 42⟩,
            3, [1, 1]⟩,
           ⟨[], [3], [60], [42]⟩) := by
  constructor <;> rfl

/-- C3 counterexample: with `maxQueueSize = 10` and `maxQueueEntries = 0`,
pushing an 11-byte message into an empty, freshly constructed client leaves
the queue empty — the entries trigger inside `scheduleFlush` dispatches the
newcomer at once — so the queue does not contain exactly the new message
immediately after the push, even though the byte-threshold premise holds. -/
theorem push_oversize_entries0_empties_queue :
    initState.queueSizeBytes + msg11.length > cfgEntries0.maxQueueSize ∧
    (pushStep cfgEntries0 initState msg11).1.queue = [] ∧
    ([] : List SerializedHecMsg) ≠ [msg11] := by
  refine ⟨by decide, by decide, by decide⟩

/-- C4 counterexample: with `maxQueueEntries = 0` — which is not positive —
and a single queued message, `scheduleFlush` does trigger an immediate
flush, refuting "an immediate flush is triggered if and only if
`maxQueueEntries` is positive and the queue has more entries than it". -/
theorem scheduleFlush_triggers_at_zero_entries :
    (scheduleFlush cfgEntries0 stOneQueued).dispatched.length >
      stOneQueued.dispatched.length ∧
    ¬ 0 < cfgEntries0.maxQueueEntries := by
  refine ⟨by decide, by decide⟩

/-- C1 (code bug witness): with a retry cap of 1 and every POST attempt
failing with HTTP 503 (no cancellation), the `sendToHec` loop never
terminates and never surfaces any error: after `fuel` iterations it has made
`fuel` further POST attempts — arbitrarily far past the cap — and still has
no result.  The source's catch block checks `attempt <= maxRetries` only to
decide whether to sleep and count a retry; it has no exit past the cap. -/
theorem sendToHec_no_retry_cap (fuel attempt : Nat) (c : Counters)
    (sleeps : List Nat) :
    (sendToHecLoop 1 (fun _ => 1) envAllFail 1 10 10 attempt fuel c
        sleeps).result = none ∧
    (sendToHecLoop 1 (fun _ => 1) envAllFail 1 10 10 attempt fuel c
        sleeps).attemptsMade = attempt + fuel := by
  induction fuel generalizing attempt c sleeps with
  | zero => exact ⟨rfl, rfl⟩
  | succ n ih =>
    simp only [sendToHecLoop, envAllFail]
    split
    · rename_i hcontra
      exact absurd hcontra (by simp)
    · split
      · refine ⟨(ih _ _ _).1, ?_⟩
        rw [(ih _ _ _).2]
        omega
      · refine ⟨(ih _ _ _).1, ?_⟩
        rw [(ih _ _ _).2]
        omega

/-- C2 counterexample: a flush whose cancellation token fires mid-request
(and likewise mid-sleep) completes with the generic JavaScript
`Error('Aborted')` — which *is* a generic error and is *not* the
distinguished `ABORT` symbol sentinel of the async-tasks abort module. -/
theorem sendToHec_abort_yields_generic_error :
    (sendToHecLoop 3 (fun _ => 1) envAbortMidRequest 1 10 10 0 5
        initialCounters []).result = some (.failure (.error "Aborted")) ∧
    (sendToHecLoop 3 (fun _ => 1) envAbortMidSleep 1 10 10 0 5
        initialCounters []).result = some (.failure (.error "Aborted")) ∧
    JsErr.error "Aborted" ≠ JsErr.abortSymbol := by
  refine ⟨rfl, rfl, by decide⟩

theorem sendToHecLoop_failure_aborted (mr : Nat) (wait : Nat → Nat)
    (env : Nat → AttemptEnv) (mc rb bs attempt fuel : Nat) (c : Counters)
    (sleeps : List Nat) (e : JsErr)
    (h : (sendToHecLoop mr wait env mc rb bs attempt fuel c sleeps).result =
      some (.failure e)) :
    e = .error "Aborted" := by
  induction fuel generalizing attempt c sleeps with
  | zero => exact absurd h (by simp [sendToHecLoop])
  | succ n ih =>
    simp only [sendToHecLoop] at h
    split at h
    · simp at h
    · split at h
      · simp at h
        exact h.symm
      · split at h
        · split at h
          · simp at h
            exact h.symm
          · exact ih _ _ _ h
        · exact ih _ _ _ h

/-- C2 (amended): every failure the retry loop of `sendToHec` ever
surfaces — in particular on cancellation mid-request or mid-sleep — is the
generic `Error('Aborted')`, distinguishable from HTTP-status transport
errors only by its message, not the `ABORT` symbol sentinel; and the only
failure `sendToHec` surfaces outside the loop is the `compressBody`
rejection when gzip is enabled, which propagates to the flush's completion
signal unchanged. -/
theorem sendToHec_failure_cases :
    (∀ (mr : Nat) (wait : Nat → Nat) (env : Nat → AttemptEnv)
        (mc rb bs attempt fuel : Nat) (c : Counters) (sleeps : List Nat)
        (e : JsErr),
      (sendToHecLoop mr wait env mc rb bs attempt fuel c sleeps).result =
        some (.failure e) →
      e = .error "Aborted") ∧
    (∀ (cfg : CookedHecConfig) (wait : Nat → Nat)
        (msgs : List SerializedHecMsg) (compressed : Except JsErr Nat)
        (env : Nat → AttemptEnv) (c : Counters) (aggs : AggSamples)
        (fuel : Nat) (e : JsErr),
      sendToHec cfg wait msgs compressed env c aggs fuel = .error e →
      cfg.gzip = true ∧ compressed = .error e) := by
  refine ⟨sendToHecLoop_failure_aborted, ?_⟩
  intro cfg wait msgs compressed env c aggs fuel e h
  simp only [sendToHec] at h
  split at h
  · rename_i e2 heq
    injection h with h2
    subst h2
    by_cases hg : cfg.gzip = true
    · rw [if_pos hg] at heq
      exact ⟨hg, heq⟩
    · rw [if_neg hg] at heq
      exact absurd heq (by simp)
  · exact absurd h (by simp)

/-- Witness for the amended C2 theorem: a concrete cancelled run of the
loop, and a concrete compression rejection propagating out of
`sendToHec`. -/
theorem sendToHec_failure_cases_witness :
    JsErr.error "Aborted" = JsErr.error "Aborted" ∧
    ({ cfgR1 with gzip := true }.gzip = true ∧
      (Except.error (JsErr.error "gzip failed") : Except JsErr Nat) =
        .error (.error "gzip failed")) :=
  ⟨sendToHec_failure_cases.1 3 (fun _ => 1) envAbortMidRequest 1 10 10 0 5
     initialCounters [] (.error "Aborted") rfl,
   sendToHec_failure_cases.2 { cfgR1 with gzip := true } (fun _ => 1) msgsR1
     (.error (.error "gzip failed")) envR1 initialCounters emptyAggSamples
     10 (.error "gzip failed") rfl⟩

/-- C3 (amended): when the tracked queue byte total plus the new message's
length exceeds `maxQueueSize`, the push dispatches the current queue — and
exactly the current queue, without the newcomer — as an immediate flush
before appending (no batch is dispatched by this step when the queue is
empty), the push succeeds, and, provided the entries trigger does not also
fire (`maxQueueEntries = -1` or `≥ 1`), the queue contains exactly the new
message immediately after the push. -/
theorem pushSerializedMsg_eager_flush (cfg : CookedHecConfig)
    (st : ClientState) (m : SerializedHecMsg)
    (hact : st.active = true)
    (hover : st.queueSizeBytes + m.length > cfg.maxQueueSize)
    (hentries : cfg.maxQueueEntries = -1 ∨ 1 ≤ cfg.maxQueueEntries) :
    (pushStep cfg st m).1.queue = [m] ∧
    (pushStep cfg st m).1.dispatched =
      st.dispatched ++ (if st.queue.isEmpty then [] else [st.queue]) ∧
    (pushStep cfg st m).2 = none := by
  have hact' : ¬ st.active = false := by simp [hact]
  have hflush : eagerFlush cfg (countQueued st m) m =
      flushInternal (countQueued st m) := if_pos hover
  have hnotrig : ∀ st2 : ClientState, st2.queue = [m] →
      ¬ (cfg.maxQueueEntries ≠ -1 ∧
         (st2.queue.length : Int) > cfg.maxQueueEntries) := by
    intro st2 hq
    rw [hq]
    rcases hentries with h | h
    · simp [h]
    · rintro ⟨-, hgt⟩
      simp only [List.length_cons, List.length_nil] at hgt
      omega
  simp only [pushStep, pushSerializedMsg, if_neg hact', hflush]
  by_cases hemp : (countQueued st m).queue.isEmpty
  · have hq : st.queue = [] := by
      simpa [countQueued, List.isEmpty_iff] using hemp
    have happ : (appendMsg (flushInternal (countQueued st m)) m).queue = [m] := by
      simp [appendMsg, flushInternal, hemp, countQueued, hq]
    rw [scheduleFlush, if_neg (hnotrig _ happ)]
    refine ⟨?_, ?_, ?_⟩
    · split <;> simpa using happ
    · split <;> simp [appendMsg, flushInternal, hemp, countQueued, hq]
    · trivial
  · have hq' : ¬ st.queue = [] := by
      simpa [countQueued, List.isEmpty_iff] using hemp
    have happ : (appendMsg (flushInternal (countQueued st m)) m).queue = [m] := by
      simp [appendMsg, flushInternal, hemp, countQueued, hq']
    rw [scheduleFlush, if_neg (hnotrig _ happ)]
    refine ⟨?_, ?_, ?_⟩
    · split <;> simpa using happ
    · split <;> simp [appendMsg, flushInternal, hemp, countQueued, hq']
    · trivial

/-- Witness for the amended C3 theorem: a 2-byte queue plus a 9-byte
message crosses the 10-byte limit; the 2-byte batch goes out alone and the
queue then holds exactly the newcomer. -/
theorem pushSerializedMsg_eager_flush_witness :
    (pushStep cfgSmallQueue stSmall msg9).1.queue = [msg9] ∧
    (pushStep cfgSmallQueue stSmall msg9).1.dispatched =
      stSmall.dispatched ++
        (if stSmall.queue.isEmpty then [] else [stSmall.queue]) ∧
    (pushStep cfgSmallQueue stSmall msg9).2 = none :=
  pushSerializedMsg_eager_flush cfgSmallQueue stSmall msg9 (by decide)
    (by decide) (Or.inl (by decide))

/-- C4 (amended): `scheduleFlush` dispatches an immediate flush iff
`maxQueueEntries ≠ -1`, the queue has more entries than `maxQueueEntries`,
and the queue is non-empty (the condition the source tests is
`maxQueueEntries !== -1 && queue.length > maxQueueEntries`, not
positivity); in particular `maxQueueEntries = -1` disables the entries
trigger entirely for all queue depths, leaving only the idle timer. -/
theorem scheduleFlush_entries_condition (cfg : CookedHecConfig)
    (st : ClientState) :
    ((scheduleFlush cfg st).dispatched.length > st.dispatched.length ↔
      cfg.maxQueueEntries ≠ -1 ∧
      (st.queue.length : Int) > cfg.maxQueueEntries ∧ st.queue ≠ []) ∧
    (cfg.maxQueueEntries = -1 →
      (scheduleFlush cfg st).dispatched = st.dispatched ∧
      (scheduleFlush cfg st).queue = st.queue ∧
      (scheduleFlush cfg st).activeFlushing = st.activeFlushing) := by
  constructor
  · simp only [scheduleFlush]
    split
    · rename_i hc
      simp only [flushInternal]
      split
      · rename_i hemp
        simp only [List.isEmpty_iff] at hemp
        simp [hemp, hc.1]
      · rename_i hemp
        simp only [List.isEmpty_iff] at hemp
        simp [hemp, hc.1, hc.2]
    · rename_i hc
      rw [not_and_or] at hc
      split
      · simp only [gt_iff_lt, lt_self_iff_false, false_iff]
        rintro ⟨h1, h2, -⟩
        exact hc.elim (fun h => h (by simpa using h1)) (fun h => h h2)
      · simp only [gt_iff_lt, lt_self_iff_false, false_iff]
        rintro ⟨h1, h2, -⟩
        exact hc.elim (fun h => h (by simpa using h1)) (fun h => h h2)
  · intro h
    rw [scheduleFlush, if_neg (by simp [h])]
    split
    · exact ⟨rfl, rfl, rfl⟩
    · exact ⟨rfl, rfl, rfl⟩

/-- Witness for the amended C4 theorem: with `maxQueueEntries = -1` and a
non-empty queue no flush is dispatched, and the trigger fires at depth 1
with `maxQueueEntries = 0`. -/
theorem scheduleFlush_entries_condition_witness :
    ((scheduleFlush cfgBase stOneQueued).dispatched =
        stOneQueued.dispatched ∧
      (scheduleFlush cfgBase stOneQueued).queue = stOneQueued.queue ∧
      (scheduleFlush cfgBase stOneQueued).activeFlushing =
        stOneQueued.activeFlushing) ∧
    (scheduleFlush cfgEntries0 stOneQueued).dispatched.length >
      stOneQueued.dispatched.length :=
  ⟨(scheduleFlush_entries_condition cfgBase stOneQueued).2 (by decide),
   (scheduleFlush_entries_condition cfgEntries0 stOneQueued).1.mpr
     ⟨by decide, by decide, by decide⟩⟩

/-- C8: `clone` with absent or empty overrides returns the very same
instance; with a URL override different from the current URL it returns a
distinct, newly constructed client with its own HTTP agent pool; with
non-empty overrides and an unchanged URL it returns a distinct client whose
configuration is the deep merge of the current configuration with the
overrides and which shares the current HTTP agent. -/
theorem clone_cases (cfg : CookedHecConfig) (o : HecConfigOverrides) :
    clone cfg none = .sameInstance ∧
    (overridesIsEmpty o = true → clone cfg (some o) = .sameInstance) ∧
    (∀ u, o.url = some u → u ≠ cfg.url →
      clone cfg (some o) = .newClient (deepMerge cfg o) false) ∧
    (overridesIsEmpty o = false → (o.url = none ∨ o.url = some cfg.url) →
      clone cfg (some o) = .newClient (deepMerge cfg o) true) := by
  refine ⟨rfl, ?_, ?_, ?_⟩
  · intro h
    simp [clone, h]
  · intro u hu hne
    have hne' : overridesIsEmpty o = false := by
      simp [overridesIsEmpty, hu]
    simp [clone, hne', hu, hne]
  · intro hemp hurl
    rcases hurl with h | h
    · simp [clone, hemp, h]
    · simp [clone, hemp, h]

/-- Witness for the clone theorem: empty overrides give the same instance; a
URL-only override gives a new client with its own pool; a token-only
override gives a new client that shares the pool. -/
theorem clone_cases_witness :
    clone cfgBase (some noOverrides) = .sameInstance ∧
    clone cfgBase (some ovUrl) = .newClient (deepMerge cfgBase ovUrl) false ∧
    clone cfgBase (some ovToken) = .newClient (deepMerge cfgBase ovToken) true :=
  ⟨(clone_cases cfgBase noOverrides).2.1 (by decide),
   (clone_cases cfgBase ovUrl).2.2.1 "https://other-host:8088" rfl (by decide),
   (clone_cases cfgBase ovToken).2.2.2 (by decide) (Or.inl rfl)⟩

/-- C9: once an `AbortHandle` has been collectively triggered, `withAbort`
fails immediately with the `ABORT` sentinel without running the closure and
without touching the group; on a non-triggered group the fresh token is in
the group's set while the closure runs and is gone from it after every exit
path — closure success, closure failure, and cancellation during the
closure — so no token leaks, and the set is restored exactly when no
collective trigger fired meanwhile. -/
theorem withAbort_cases {α : Type} (st : AbortHandleState) (fresh : Nat)
    (abortedDuring : Bool) (res : Except JsErr α) :
    (st.aborted = true →
      (withAbort st fresh abortedDuring res).result = .error .abortSymbol ∧
      (withAbort st fresh abortedDuring res).ranClosure = false ∧
      (withAbort st fresh abortedDuring res).finalState = st) ∧
    (st.aborted = false →
      (withAbort st fresh abortedDuring res).ranClosure = true ∧
      (withAbort st fresh abortedDuring res).result = res ∧
      (withAbort st fresh abortedDuring res).duringState.handles =
        insert fresh st.handles ∧
      fresh ∉ (withAbort st fresh abortedDuring res).finalState.handles ∧
      (abortedDuring = false → fresh ∉ st.handles →
        (withAbort st fresh abortedDuring res).finalState.handles =
          st.handles)) := by
  constructor
  · intro h
    simp [withAbort, h]
  · intro h
    refine ⟨by simp [withAbort, h], by simp [withAbort, h], by simp [withAbort, h], ?_, ?_⟩
    · simp only [withAbort, h, Bool.false_eq_true, if_false]
      cases abortedDuring <;> simp [abortAll]
    · intro had hmem
      simp [withAbort, h, had, abortAll, Finset.erase_insert hmem]

/-- Witness for the `withAbort` theorem on a triggered and on a fresh
group. -/
theorem withAbort_cases_witness :
    (withAbort ⟨true, ∅⟩ 0 false (.ok (0 : Nat))).result =
      .error .abortSymbol ∧
    (withAbort ⟨false, ∅⟩ 0 false (.ok (0 : Nat))).duringState.handles =
      insert 0 (∅ : Finset Nat) ∧
    0 ∉ (withAbort ⟨false, ∅⟩ 0 false (.ok (0 : Nat))).finalState.handles ∧
    (withAbort ⟨false, ∅⟩ 0 false (.ok (0 : Nat))).finalState.handles =
      (∅ : Finset Nat) :=
  ⟨((withAbort_cases ⟨true, ∅⟩ 0 false (.ok 0)).1 rfl).1,
   ((withAbort_cases ⟨false, ∅⟩ 0 false (.ok 0)).2 rfl).2.2.1,
   ((withAbort_cases ⟨false, ∅⟩ 0 false (.ok 0)).2 rfl).2.2.2.1,
   ((withAbort_cases ⟨false, ∅⟩ 0 false (.ok 0)).2 rfl).2.2.2.2 rfl
     (Finset.not_mem_empty 0)⟩

end DltConnect
